import Mathlib

/-!
Verification development for the copy-trader service.

The TypeScript sources are shallowly embedded:
* JavaScript numbers are modelled exactly.  Every numeric value reachable
  in the swap classifier is a decimal fraction `num / 10 ^ exp` (token
  amounts scaled by `10 ** decimals`, lamports scaled by `1e9`), so numbers
  are carried as `Dec` (an integer numerator with a power-of-ten exponent)
  and interpreted into `ℚ` by `Dec.toRat`; `NaN` — which arises from
  `Number()` applied to a malformed decimal string and is absorbed by the
  arithmetic used here — is `none` in `JNum := Option Dec`.  All
  comparisons against `NaN` are `false`, exactly as in JavaScript.
  (Double-precision rounding is idealised away: the claims under test
  concern exact decimal values and signs.)
* JavaScript `Map`s are association lists preserving insertion order.
* Redis state is explicit: string sets become `List String` (Redis makes an
  empty set indistinguishable from an absent key, so key deletion is
  modelled as the empty list), counters become total functions defaulting
  to `0`, and single-value keys become `Option`-valued functions.
* Asynchronous methods are pure state transformers; the external provider
  (Helius) calls are modelled as succeeding, and fresh UUIDs / `Date.now()`
  values are passed in as parameters.
-/

namespace CopyTrader

/-! ## JavaScript number model: exact decimals, `none` = NaN -/

/-- An exact decimal fraction `num / 10 ^ exp`.  Every number the swap
classifier manipulates has this shape. -/
structure Dec where
  num : ℤ
  exp : ℕ
  deriving Repr, DecidableEq

/-- The rational value of a `Dec`. -/
def Dec.toRat (d : Dec) : ℚ := (d.num : ℚ) / 10 ^ d.exp

/-- A JavaScript number restricted to the values reachable in the swap
classifier: an exact decimal, or `NaN` (`none`). -/
abbrev JNum := Option Dec

/-- The rational value of a `JNum` (`none` for `NaN`). -/
def jToRat : JNum → Option ℚ := Option.map Dec.toRat

/-- JavaScript `+` on `JNum`: exact addition, `NaN` is absorbing. -/
def jAdd : JNum → JNum → JNum
  | some a, some b =>
      let e := max a.exp b.exp
      some ⟨a.num * 10 ^ (e - a.exp) + b.num * 10 ^ (e - b.exp), e⟩
  | _, _ => none

/-- JavaScript `=== 0`: false for `NaN`. -/
def jIsZero : JNum → Bool
  | some a => if a.num = 0 then true else false
  | none => false

/-- JavaScript `< 0`: false for `NaN`. -/
def jLtZero : JNum → Bool
  | some a => if a.num < 0 then true else false
  | none => false

/-- JavaScript `> 0`: false for `NaN`. -/
def jGtZero : JNum → Bool
  | some a => if 0 < a.num then true else false
  | none => false

/-- JavaScript `Math.abs`: `NaN` maps to `NaN`. -/
def jAbs : JNum → JNum
  | some a => some ⟨|a.num|, a.exp⟩
  | none => none

/-- Value of a list of decimal digit characters; `none` if any character
is not a digit.  The empty list yields `some 0` (callers decide whether
that is legal where it matters). -/
def digitsVal (cs : List Char) : Option ℕ :=
  cs.foldl
    (fun acc c =>
      match acc with
      | none => none
      | some n => if c.isDigit then some (n * 10 + (c.toNat - 48)) else none)
    (some 0)

/-- Split a character list at every `'.'`. -/
def splitOnDot : List Char → List (List Char)
  | [] => [[]]
  | c :: rest =>
      if c = '.' then [] :: splitOnDot rest
      else
        match splitOnDot rest with
        | [] => [[c]]
        | p :: ps => (c :: p) :: ps

/-- Model of JavaScript `Number()` on the fragment of strings this
code base feeds it: an optional sign followed by a plain decimal numeral
(digits with at most one decimal point).  The empty string is `0`; every
other string outside this fragment (letters, several dots, a bare sign)
is `NaN`.  Exponent, hexadecimal and whitespace forms never occur in the
webhook payloads and are outside the modelled fragment. -/
def jsNumberChars (cs : List Char) : JNum :=
  match cs with
  | [] => some ⟨0, 0⟩
  | c :: rest =>
    let sgn : ℤ := if c = '-' then -1 else 1
    let body := if c = '-' ∨ c = '+' then rest else cs
    match splitOnDot body with
    | [intPart] =>
        if intPart = [] then none
        else (digitsVal intPart).map (fun n => ⟨sgn * n, 0⟩)
    | [intPart, fracPart] =>
        if intPart = [] ∧ fracPart = [] then none
        else
          match digitsVal intPart, digitsVal fracPart with
          | some i, some f =>
              some ⟨sgn * ((i : ℤ) * 10 ^ fracPart.length + f), fracPart.length⟩
          | _, _ => none
    | _ => none

/-- JavaScript `Number()` on a string, via `jsNumberChars`. -/
def jsNumber (s : String) : JNum :=
  jsNumberChars s.data

/-- Model of `raw.replace('-', '')` — JavaScript `String.replace` with a
string pattern removes only the FIRST occurrence. -/
def removeFirstDash : List Char → List Char
  | [] => []
  | c :: rest => if c = '-' then rest else c :: removeFirstDash rest

/-! ## Swap classifier (`src/utils/swapClassifier.ts`) -/

/-- The `WSOL_MINT` / `SOL_MINT` constant of the classifier source. -/
def SOL_MINT : String := "So11111111111111111111111111111111111111112"

structure RawTokenAmount where
  decimals : ℕ
  tokenAmount : String
  deriving Repr, DecidableEq

structure TokenBalanceChange where
  mint : String
  rawTokenAmount : RawTokenAmount
  tokenAccount : String
  userAccount : String
  deriving Repr, DecidableEq

structure Account where
  account : String
  nativeBalanceChange : ℤ
  tokenBalanceChanges : List TokenBalanceChange
  deriving Repr, DecidableEq

structure TokenTransfer where
  fromTokenAccount : String
  fromUserAccount : String
  mint : String
  toTokenAccount : String
  toUserAccount : String
  tokenAmount : Dec
  deriving Repr, DecidableEq

structure TransactionData where
  accountData : List Account
  tokenTransfers : List TokenTransfer
  deriving Repr, DecidableEq

inductive Side where
  | buy
  | sell
  | unknown
  deriving Repr, DecidableEq

structure ParsedSwap where
  side : Side
  tokenMint : String
  tokenAmount : JNum
  solAmount : JNum
  deriving Repr, DecidableEq

/-- Model of `toHuman`: `sign * Number(raw.replace('-','')) / 10 ** decimals`,
sign from a leading `-`, magnitude from the stripped numeral.  A malformed
numeral gives `NaN` (not zero). -/
def toHuman (raw : String) (decimals : ℕ) : JNum :=
  let sgn : ℤ := if raw.data.head? = some '-' then -1 else 1
  (jsNumberChars (removeFirstDash raw.data)).map
    (fun d => ⟨sgn * d.num, d.exp + decimals⟩)

/-- A JavaScript `Map` keyed by strings, as an insertion-ordered
association list. -/
abbrev MintMap := List (String × JNum)

/-- JavaScript `Map.get`: `none` when the key is absent. -/
def mapGet (m : MintMap) (k : String) : Option JNum :=
  (m.find? (fun e => if e.1 = k then true else false)).map (·.2)

/-- JavaScript `Map.set`: replaces in place, appends new keys at the end. -/
def mapSet : MintMap → String → JNum → MintMap
  | [], k, v => [(k, v)]
  | (k', v') :: rest, k, v =>
      if k' = k then (k, v) :: rest else (k', v') :: mapSet rest k v

/-- Model of `(mintMap.get(mint) || 0)`: an absent key is `undefined`
(falsy) and a
stored `NaN` is falsy too, so both collapse to `0`; a stored zero value is
falsy and also yields `0`. -/
def getOrZero (m : MintMap) (k : String) : Dec :=
  match mapGet m k with
  | some (some d) => if d.num = 0 then ⟨0, 0⟩ else d
  | _ => ⟨0, 0⟩

abbrev UserMap := List (String × MintMap)

def userMapGet (um : UserMap) (u : String) : Option MintMap :=
  (um.find? (fun e => if e.1 = u then true else false)).map (·.2)

def userMapSet : UserMap → String → MintMap → UserMap
  | [], u, m => [(u, m)]
  | (u', m') :: rest, u, m =>
      if u' = u then (u, m) :: rest else (u', m') :: userMapSet rest u m

/-- Model of `if (!userChanges.has(user)) userChanges.set(user, new Map())` followed
by an in-place mutation of the user's mint map. -/
def userUpdate (um : UserMap) (u : String) (f : MintMap → MintMap) : UserMap :=
  match userMapGet um u with
  | some m => userMapSet um u (f m)
  | none => um ++ [(u, f [])]

/-- First loop of `parseSwap`: accumulate token-balance changes into
`userAccount → mint → net change`. -/
def applyTokenChanges (um : UserMap) (acc : Account) : UserMap :=
  acc.tokenBalanceChanges.foldl
    (fun um tbc =>
      userUpdate um tbc.userAccount (fun mm =>
        mapSet mm tbc.mint
          (jAdd (some (getOrZero mm tbc.mint))
            (toHuman tbc.rawTokenAmount.tokenAmount tbc.rawTokenAmount.decimals))))
    um

/-- Second loop of `parseSwap`: attribute each non-zero native balance
change to the account itself under the SOL mint, scaled by `1e9`. -/
def applyNativeChange (um : UserMap) (acc : Account) : UserMap :=
  if acc.nativeBalanceChange ≠ 0 then
    userUpdate um acc.account (fun mm =>
      mapSet mm SOL_MINT
        (jAdd (some (getOrZero mm SOL_MINT)) (some ⟨acc.nativeBalanceChange, 9⟩)))
  else um

/-- The `userChanges` map built by steps 1–2 of `parseSwap`: all
token-balance changes of every account first, then all native deltas. -/
def userChanges (tx : TransactionData) : UserMap :=
  tx.accountData.foldl applyNativeChange (tx.accountData.foldl applyTokenChanges [])

/-- Step 2 of `parseSwap`: `targetUser ?? [...userChanges.keys()][0]`. -/
def selectedUser (tx : TransactionData) (targetUser : Option String) : Option String :=
  targetUser.orElse (fun _ => ((userChanges tx).head?).map (·.1))

/-- Model of `changes.get(SOL_MINT) ?? 0`: `??` only rescues `undefined`, so an
absent key becomes `0` while a stored `NaN` stays `NaN`. -/
def solDeltaOf (mm : MintMap) : JNum :=
  match mapGet mm SOL_MINT with
  | some v => v
  | none => some ⟨0, 0⟩

/-- The non-SOL entries of the selected user's mint map. -/
def tokenEntriesOf (mm : MintMap) : List (String × JNum) :=
  mm.filter (fun e => if e.1 = SOL_MINT then false else true)

/-- Model of `parseSwap(tx, targetUser)`.  Here `none` models the `{} as ParsedSwap`
sentinel returned on every structural failure; the surrounding
`try`/`catch` (all operations here are total) makes the function
exception-free. -/
def parseSwap (tx : TransactionData) (targetUser : Option String) : Option ParsedSwap :=
  match selectedUser tx targetUser with
  | none => none
  | some u =>
    if u = "" then none
    else
      match userMapGet (userChanges tx) u with
      | none => none
      | some mm =>
        let solChange := solDeltaOf mm
        match tokenEntriesOf mm with
        | [(tokenMint, tokenChange)] =>
            if jIsZero solChange || jIsZero tokenChange then none
            else
              let side :=
                if jLtZero solChange && jGtZero tokenChange then Side.buy
                else if jLtZero tokenChange && jGtZero solChange then Side.sell
                else Side.unknown
              some ⟨side, tokenMint, jAbs tokenChange, jAbs solChange⟩
        | _ => none

/-! ## Subscription & KOL registry
(`src/services/cache/CacheService.ts`, `src/services/blockchain/HeliusWebhookService.ts`)

UUIDs and `Date` values are modelled as natural numbers supplied by the
caller.  The provider (Helius) webhook-append / remove calls are modelled
as succeeding; Redis string sets are `List String` (`SADD` / `SREM` /
`SCARD` semantics, an empty set being the same as an absent key). -/

inductive SubType where
  | trade
  | watch
  deriving Repr, DecidableEq

structure WatchConfig where
  takeProfitPercentage : Option ℚ
  stopLossPercentage : Option ℚ
  enableTrailingStop : Option Bool
  trailingPercentage : Option ℚ
  maxHoldTimeMinutes : Option ℕ
  deriving Repr, DecidableEq

structure SubscriptionSettings where
  enableSlippageProtection : Option Bool
  maxSlippagePercent : Option ℚ
  enableDexWhitelist : Option Bool
  allowedDexes : Option (List String)
  enableTokenBlacklist : Option Bool
  blacklistedTokens : Option (List String)
  deriving Repr, DecidableEq

/-- The caller-supplied part of a `UserSubscription`
(`Omit<UserSubscription, 'id' | 'createdAt' | 'updatedAt'>`). -/
structure SubInput where
  userId : String
  kolWallet : String
  walletAddress : String
  privateKey : String
  isActive : Bool
  copyPercentage : ℚ
  maxAmount : Option ℚ
  minAmount : Option ℚ
  tokenBuyCount : Option ℕ
  settings : Option SubscriptionSettings
  type : SubType
  watchConfig : Option WatchConfig
  deriving Repr, DecidableEq

/-- A stored `UserSubscription`: the spread `{...subscription, id,
createdAt, updatedAt}` is modelled as the input record plus the three
generated fields. -/
structure StoredSub where
  sub : SubInput
  id : ℕ
  createdAt : ℕ
  updatedAt : ℕ
  deriving Repr, DecidableEq

/-- The Redis state the registry operations touch:
`sub:user:{userId}` keys, `kol:subscribers:{kolWallet}` sets and the
`kol:active` set. -/
structure RegistryState where
  userSubs : String → List StoredSub
  subscribers : String → List String
  active : List String

/-- Redis `SADD` on a modelled set. -/
def ssadd (l : List String) (x : String) : List String :=
  if x ∈ l then l else l ++ [x]

/-- Redis `SREM` on a modelled set. -/
def ssrem (l : List String) (x : String) : List String :=
  l.filter (fun y => if y = x then false else true)

/-- Empty Redis database. -/
def initState : RegistryState :=
  { userSubs := fun _ => [], subscribers := fun _ => [], active := [] }

/-- Model of `CacheService.addKOLWallet`: `SADD` the wallet into `kol:active`
(TTL refresh elided). -/
def addKOLWallet (st : RegistryState) (w : String) : RegistryState :=
  { st with active := ssadd st.active w }

/-- Model of `CacheService.removeKOLWallet`: `SREM` the wallet from
the `kol:active` set. -/
def removeKOLWallet (st : RegistryState) (w : String) : RegistryState :=
  { st with active := ssrem st.active w }

/-- Model of `CacheService.addKOLWalletSubscriber`: `SADD` the user into
`kol:subscribers:{kolWallet}` (TTL refresh elided). -/
def addKOLWalletSubscriber (st : RegistryState) (kol u : String) : RegistryState :=
  { st with
    subscribers := fun k =>
      if k = kol then ssadd (st.subscribers k) u else st.subscribers k }

/-- Model of `CacheService.removeKOLWalletSubscriber`: `SREM` the user; if `SCARD`
then reads 0, remove the wallet from `kol:active` and `DEL` the (already
empty) subscribers key. -/
def removeKOLWalletSubscriber (st : RegistryState) (kol u : String) : RegistryState :=
  let s' := ssrem (st.subscribers kol) u
  let st1 : RegistryState :=
    { st with
      subscribers := fun k => if k = kol then s' else st.subscribers k }
  if s' = [] then removeKOLWallet st1 kol else st1

/-- Model of `CacheService.addSubscription`: drop any existing subscription of the
user for the same KOL, append `{...subscription, id, createdAt, updatedAt}`
with a FRESH id and FRESH timestamps (whether or not one existed), store
the list back, then add the user to the KOL's subscriber set. -/
def addSubscription (st : RegistryState) (s : SubInput) (id now : ℕ) : RegistryState :=
  let filtered := (st.userSubs s.userId).filter
    (fun x => if x.sub.kolWallet = s.kolWallet then false else true)
  let st1 : RegistryState :=
    { st with
      userSubs := fun u =>
        if u = s.userId then filtered ++ [⟨s, id, now, now⟩] else st.userSubs u }
  addKOLWalletSubscriber st1 s.kolWallet s.userId

/-- Model of `CacheService.removeSubscription`: filter the user's list (storing it
back, or `DEL` when it became empty — both are the filtered list here),
then `removeKOLWalletSubscriber`. -/
def removeSubscription (st : RegistryState) (u kol : String) : RegistryState :=
  let filtered := (st.userSubs u).filter
    (fun x => if x.sub.kolWallet = kol then false else true)
  let st1 : RegistryState :=
    { st with userSubs := fun v => if v = u then filtered else st.userSubs v }
  removeKOLWalletSubscriber st1 kol u

/-- Model of `CacheService.getSubscriptionsForKOL`: join the subscriber set with
each member's subscription list, keeping the entry for this KOL. -/
def getSubscriptionsForKOL (st : RegistryState) (kol : String) : List StoredSub :=
  (st.subscribers kol).filterMap
    (fun u => (st.userSubs u).find?
      (fun x => if x.sub.kolWallet = kol then true else false))

/-- Model of `HeliusWebhookService.addKolWalletToWebhook`: snapshot the active set,
append the addresses to the Helius webhook (modelled as succeeding), then
`addKOLWallet` each address that was not in the snapshot. -/
def addKolWalletToWebhook (st : RegistryState) (ws : List String) : RegistryState :=
  let snapshot := st.active
  ws.foldl (fun s w => if w ∈ snapshot then s else addKOLWallet s w) st

/-- Model of `HeliusWebhookService.removeKOLWalletWebhook`: remove the address from
the Helius webhook (modelled as succeeding) and from `kol:active`.  The
subscriber set is NOT touched. -/
def removeKOLWalletWebhook (st : RegistryState) (w : String) : RegistryState :=
  removeKOLWallet st w

/-- Model of `HeliusWebhookService.subscribeToKOL`: `addSubscription`, then if the
KOL is not in the active set, `addKolWalletToWebhook([kolWallet])`. -/
def subscribeToKOL (st : RegistryState) (s : SubInput) (id now : ℕ) : RegistryState :=
  let st1 := addSubscription st s id now
  if s.kolWallet ∈ st1.active then st1 else addKolWalletToWebhook st1 [s.kolWallet]

/-- Model of `HeliusWebhookService.unsubscribeFromKOL`: `removeSubscription`, then
if `getSubscriptionsForKOL` is empty, `removeKOLWalletWebhook`. -/
def unsubscribeFromKOL (st : RegistryState) (u kol : String) : RegistryState :=
  let st1 := removeSubscription st u kol
  if getSubscriptionsForKOL st1 kol = [] then removeKOLWalletWebhook st1 kol else st1

/-- States reachable through the service-level registry operations
`subscribeToKOL` / `unsubscribeFromKOL` (and the `removeSubscription`
they delegate to), starting from an empty database. -/
inductive Reachable : RegistryState → Prop where
  | init : Reachable initState
  | subscribe {st} (s : SubInput) (id now : ℕ) :
      Reachable st → Reachable (subscribeToKOL st s id now)
  | unsubscribe {st} (u kol : String) :
      Reachable st → Reachable (unsubscribeFromKOL st u kol)
  | remove {st} (u kol : String) :
      Reachable st → Reachable (removeSubscription st u kol)

/-- States reachable through ALL the public registry operations named in
the specification, including the raw `addSubscription` and the direct
webhook mutators. -/
inductive ReachableAll : RegistryState → Prop where
  | init : ReachableAll initState
  | subscribe {st} (s : SubInput) (id now : ℕ) :
      ReachableAll st → ReachableAll (subscribeToKOL st s id now)
  | unsubscribe {st} (u kol : String) :
      ReachableAll st → ReachableAll (unsubscribeFromKOL st u kol)
  | add {st} (s : SubInput) (id now : ℕ) :
      ReachableAll st → ReachableAll (addSubscription st s id now)
  | remove {st} (u kol : String) :
      ReachableAll st → ReachableAll (removeSubscription st u kol)
  | webhookAdd {st} (ws : List String) :
      ReachableAll st → ReachableAll (addKolWalletToWebhook st ws)
  | webhookRemove {st} (w : String) :
      ReachableAll st → ReachableAll (removeKOLWalletWebhook st w)

/-! ## Purchase-quota gate (`src/services/cache/TokenPurchaseTracker.ts`) -/

structure TokenPurchaseRecord where
  userId : String
  tokenMint : String
  currentCount : ℕ
  maxCount : ℕ
  lastPurchaseTimestamp : ℕ
  subscriptionId : ℕ
  deriving Repr, DecidableEq

structure IncrResult where
  success : Bool
  newCount : ℕ
  wasAtLimit : Bool
  deriving Repr, DecidableEq

/-- The Redis state of the tracker: `token_buy_count` counters (`INCR` on
an absent key yields 1, so an absent counter is 0) and
`token_purchase_record` values, both keyed by `(userId, tokenMint)`. -/
structure TrackerState where
  counter : String → String → ℕ
  record : String → String → Option TokenPurchaseRecord

/-- Model of `TokenPurchaseTracker.incrementAndValidatePurchase`.
`INCR` + `EXPIRE` in a `MULTI` (TTL elided), read the new count; over the
limit → `DECR` back and report `wasAtLimit`; otherwise write the detailed
record.  `recordWriteOk = false` models the record `SET` throwing, which
lands in the `catch` that reports `{success: false, newCount: 0,
wasAtLimit: false}` — with no rollback of the counter. -/
def incrementAndValidatePurchase (st : TrackerState) (userId tokenMint : String)
    (maxPurchaseCount : ℕ) (subscriptionId : ℕ) (now : ℕ) (recordWriteOk : Bool) :
    TrackerState × IncrResult :=
  let newCount := st.counter userId tokenMint + 1
  let st1 : TrackerState :=
    { st with
      counter := fun u t =>
        if u = userId ∧ t = tokenMint then newCount else st.counter u t }
  if newCount > maxPurchaseCount then
    ({ st1 with
        counter := fun u t =>
          if u = userId ∧ t = tokenMint then newCount - 1 else st.counter u t },
      ⟨false, newCount - 1, true⟩)
  else if recordWriteOk then
    ({ st1 with
        record := fun u t =>
          if u = userId ∧ t = tokenMint then
            some ⟨userId, tokenMint, newCount, maxPurchaseCount, now, subscriptionId⟩
          else st.record u t },
      ⟨true, newCount, false⟩)
  else
    (st1, ⟨false, 0, false⟩)

/-! ## Dispatcher: copy-trade batch
(`HeliusWebhookService.processTransaction`, lines 477–496) -/

inductive TradeDir where
  | buy
  | sell
  deriving Repr, DecidableEq

/-- The fields of a parsed `KOLTrade` that the batch construction reads
(`id`/`signature`/timestamps etc. are carried elsewhere and elided). -/
structure KOLTrade where
  kolWallet : String
  tradeType : TradeDir
  mint : Option String
  deriving Repr, DecidableEq

structure QueuedTradeParams where
  agentId : String
  tradeType : Option TradeDir
  amount : Option ℚ
  privateKey : String
  mint : Option String
  priority : String
  watchConfig : Option WatchConfig
  deriving Repr, DecidableEq

/-- The batch built inside `processTransaction`: EVERY subscription of
type `trade` is mapped into a queued trade — there is no call into the
`TokenPurchaseTracker`, so no quota state appears anywhere. -/
def buildBatchTrades (subscriptions : List StoredSub) (kolTrade : Option KOLTrade) :
    List QueuedTradeParams :=
  (subscriptions.filter (fun s => if s.sub.type = SubType.trade then true else false)).map
    (fun s =>
      { agentId := s.sub.userId
        tradeType := kolTrade.map (·.tradeType)
        amount := s.sub.minAmount
        privateKey := s.sub.privateKey
        mint := kolTrade.bind (·.mint)
        priority := "high"
        watchConfig := s.sub.watchConfig })

/-- The RPC step of `processTransaction`: `performBatchTrades` is called with
the batch exactly when the subscription list is non-empty (`none` = no RPC
call). -/
def performBatchTradesCall (subscriptions : List StoredSub) (kolTrade : Option KOLTrade) :
    Option (List QueuedTradeParams) :=
  if subscriptions ≠ [] then some (buildBatchTrades subscriptions kolTrade) else none

/-! ## Dispatcher: notification fan-out
(`CopyTradingService.processWebhookData`, `src/index.ts`) -/

/-- Model of `data.amountIn` where `data` is the raw webhook request body — a JSON
ARRAY of transactions.  An array has no `amountIn` property, so the access
yields `undefined`. -/
def webhookArrayAmountIn (_ : List TransactionData) : Option ℚ := none

/-- The notification's `estimatedCopyAmount` expression:
`(data.amountIn || 0) * (subscription.copyPercentage / 100) || 0`. -/
def estimatedCopyAmount (dataAmountIn : Option ℚ) (copyPercentage : ℚ) : ℚ :=
  let base := dataAmountIn.getD 0
  let prod := base * (copyPercentage / 100)
  if prod = 0 then 0 else prod

/-- The per-subscription notification loop of `processWebhookData`,
projected to the claim-relevant payload fields: one `(userId,
estimatedCopyAmount)` per subscription, where `data` is the webhook body
array. -/
def buildNotifications (body : List TransactionData) (subscriptions : List StoredSub) :
    List (String × ℚ) :=
  subscriptions.map
    (fun s => (s.sub.userId, estimatedCopyAmount (webhookArrayAmountIn body) s.sub.copyPercentage))

/-! ## Classifier shape predicates and concrete fixtures -/

/-- The side recorded by the classifier, if any. -/
def resultSide (tx : TransactionData) (target : Option String) : Option Side :=
  (parseSwap tx target).map (·.side)

/-- Step 4 of `parseSwap` in isolation: the side determined by the SOL
and token deltas. -/
def sideOf (sol tc : JNum) : Side :=
  if jLtZero sol && jGtZero tc then Side.buy
  else if jLtZero tc && jGtZero sol then Side.sell
  else Side.unknown

/-- Shape of a payload the classifier reports as a buy: a user is
selected, has a mint map, exactly one non-SOL delta, the SOL delta is
negative and the token delta is positive. -/
def BuyShape (tx : TransactionData) (target : Option String) : Prop :=
  ∃ u mm tm tc, selectedUser tx target = some u ∧ u ≠ "" ∧
    userMapGet (userChanges tx) u = some mm ∧
    tokenEntriesOf mm = [(tm, tc)] ∧
    jLtZero (solDeltaOf mm) = true ∧ jGtZero tc = true

/-- Shape of a payload the classifier reports as a sell: as `BuyShape`
with the token delta negative and the SOL delta positive. -/
def SellShape (tx : TransactionData) (target : Option String) : Prop :=
  ∃ u mm tm tc, selectedUser tx target = some u ∧ u ≠ "" ∧
    userMapGet (userChanges tx) u = some mm ∧
    tokenEntriesOf mm = [(tm, tc)] ∧
    jLtZero tc = true ∧ jGtZero (solDeltaOf mm) = true

/-- Concrete buy payload of the specification scenario: user `W`, native
delta −50,000,000 lamports, one token change on mint `M` of raw amount
"1000000000" at 6 decimals. -/
def c4Tx : TransactionData :=
  { accountData := [
      { account := "W", nativeBalanceChange := -50000000,
        tokenBalanceChanges := [
          { mint := "M", rawTokenAmount := { decimals := 6, tokenAmount := "1000000000" },
            tokenAccount := "TA", userAccount := "W" } ] } ],
    tokenTransfers := [] }

/-- Same payload with the raw token amount replaced by the malformed
string "abc". -/
def malTx : TransactionData :=
  { accountData := [
      { account := "W", nativeBalanceChange := -50000000,
        tokenBalanceChanges := [
          { mint := "M", rawTokenAmount := { decimals := 6, tokenAmount := "abc" },
            tokenAccount := "TA", userAccount := "W" } ] } ],
    tokenTransfers := [] }

/-- Same payload with the raw token amount replaced by "0" — the payload
a treat-parse-failures-as-zero classifier would effectively see. -/
def malZeroTx : TransactionData :=
  { accountData := [
      { account := "W", nativeBalanceChange := -50000000,
        tokenBalanceChanges := [
          { mint := "M", rawTokenAmount := { decimals := 6, tokenAmount := "0" },
            tokenAccount := "TA", userAccount := "W" } ] } ],
    tokenTransfers := [] }

/-- Concrete watch configuration used by the fixtures. -/
def demoWatchConfig : WatchConfig :=
  { takeProfitPercentage := some 50, stopLossPercentage := some 20,
    enableTrailingStop := some true, trailingPercentage := some 10,
    maxHoldTimeMinutes := some 60 }

/-- Concrete subscription input: a quota-gated trade subscription
(type `trade`, `tokenBuyCount = 1`, `watchConfig` present). -/
def demoSub : SubInput :=
  { userId := "U1", kolWallet := "K1", walletAddress := "WA1", privateKey := "PK1",
    isActive := true, copyPercentage := 50, maxAmount := none, minAmount := some 1,
    tokenBuyCount := some 1, settings := none, type := SubType.trade,
    watchConfig := some demoWatchConfig }

/-- A second subscription input sharing (userId, kolWallet) with
`demoSub` but differing in other fields. -/
def demoSub2 : SubInput :=
  { demoSub with copyPercentage := 75, minAmount := some 2, walletAddress := "WA2" }

/-- Concrete stored subscription record. -/
def demoStored : StoredSub := ⟨demoSub, 1, 100, 100⟩

/-- Concrete parsed KOL trade: a buy of mint `M`. -/
def demoTrade : KOLTrade := { kolWallet := "K1", tradeType := TradeDir.buy, mint := some "M" }

/-- A registry state in which wallet `K1` is active with no subscribers
(obtainable from the empty database by `addKolWalletToWebhook`). -/
def orphanActiveState : RegistryState :=
  { userSubs := fun _ => [], subscribers := fun _ => [], active := ["K1"] }

/-- Invariant of the specification: a wallet is active exactly when its
subscriber set is non-empty. -/
def ActiveInv (st : RegistryState) : Prop :=
  ∀ k, k ∈ st.active ↔ st.subscribers k ≠ []

/-- Auxiliary invariant: every member of a subscriber set holds a
subscription for that KOL. -/
def SubsInv (st : RegistryState) : Prop :=
  ∀ k u, u ∈ st.subscribers k →
    ∃ x ∈ st.userSubs u, x.sub.kolWallet = k

/-! ## Helper lemmas -/

theorem jLtZero_isZero (a : JNum) (h : jLtZero a = true) : jIsZero a = false := by
  cases a with
  | none => simp [jLtZero] at h
  | some d =>
      simp only [jLtZero] at h
      split at h
      · next hlt => simp only [jIsZero]; rw [if_neg (by omega)]
      · simp at h

theorem jGtZero_isZero (a : JNum) (h : jGtZero a = true) : jIsZero a = false := by
  cases a with
  | none => simp [jGtZero] at h
  | some d =>
      simp only [jGtZero] at h
      split at h
      · next hlt => simp only [jIsZero]; rw [if_neg (by omega)]
      · simp at h

theorem parseSwap_eval (tx : TransactionData) (target : Option String) (u : String)
    (mm : MintMap) (tm : String) (tc : JNum)
    (hsel : selectedUser tx target = some u) (hu : u ≠ "")
    (hget : userMapGet (userChanges tx) u = some mm)
    (hent : tokenEntriesOf mm = [(tm, tc)]) :
    parseSwap tx target =
      if jIsZero (solDeltaOf mm) || jIsZero tc then none
      else some ⟨sideOf (solDeltaOf mm) tc, tm, jAbs tc, jAbs (solDeltaOf mm)⟩ := by
  unfold parseSwap
  rw [hsel]
  dsimp only
  rw [if_neg hu, hget]
  dsimp only
  rw [hent]
  simp [sideOf]

theorem parseSwap_shapeless (tx : TransactionData) (target : Option String)
    (h : ∀ u mm tm tc, ¬ (selectedUser tx target = some u ∧ u ≠ "" ∧
        userMapGet (userChanges tx) u = some mm ∧ tokenEntriesOf mm = [(tm, tc)])) :
    parseSwap tx target = none := by
  unfold parseSwap
  rcases hsel : selectedUser tx target with _ | u
  · rfl
  · dsimp only
    by_cases hu : u = ""
    · rw [if_pos hu]
    · rw [if_neg hu]
      rcases hget : userMapGet (userChanges tx) u with _ | mm
      · rfl
      · dsimp only
        rcases hent : tokenEntriesOf mm with _ | ⟨⟨tm, tc⟩, rest⟩
        · rfl
        · rcases rest with _ | ⟨e2, rest2⟩
          · exact absurd ⟨hsel, hu, hget, hent⟩ (h u mm tm tc)
          · rfl

theorem resultSide_buy_iff (tx : TransactionData) (target : Option String) :
    resultSide tx target = some Side.buy ↔ BuyShape tx target := by
  constructor
  · intro h
    unfold resultSide at h
    by_cases hs : ∃ u mm tm tc, selectedUser tx target = some u ∧ u ≠ "" ∧
        userMapGet (userChanges tx) u = some mm ∧ tokenEntriesOf mm = [(tm, tc)]
    · obtain ⟨u, mm, tm, tc, hsel, hu, hget, hent⟩ := hs
      rw [parseSwap_eval tx target u mm tm tc hsel hu hget hent] at h
      by_cases hz : jIsZero (solDeltaOf mm) || jIsZero tc
      · rw [if_pos hz] at h; simp at h
      · rw [if_neg hz] at h
        simp only [Option.map_some', Option.some.injEq] at h
        unfold sideOf at h
        by_cases hc : jLtZero (solDeltaOf mm) && jGtZero tc
        · rw [Bool.and_eq_true] at hc
          exact ⟨u, mm, tm, tc, hsel, hu, hget, hent, hc.1, hc.2⟩
        · rw [if_neg hc] at h
          split at h <;> simp at h
    · push_neg at hs
      rw [parseSwap_shapeless tx target
        (fun u mm tm tc hc => by
          obtain ⟨h1, h2, h3, h4⟩ := hc
          exact absurd h4 (hs u mm tm tc h1 h2 h3))] at h
      simp at h
  · rintro ⟨u, mm, tm, tc, hsel, hu, hget, hent, hlt, hgt⟩
    unfold resultSide
    rw [parseSwap_eval tx target u mm tm tc hsel hu hget hent]
    rw [if_neg (by simp [jLtZero_isZero _ hlt, jGtZero_isZero _ hgt])]
    simp only [Option.map_some', Option.some.injEq]
    unfold sideOf
    rw [if_pos (by simp [hlt, hgt])]

theorem resultSide_sell_iff (tx : TransactionData) (target : Option String) :
    resultSide tx target = some Side.sell ↔ SellShape tx target := by
  constructor
  · intro h
    unfold resultSide at h
    by_cases hs : ∃ u mm tm tc, selectedUser tx target = some u ∧ u ≠ "" ∧
        userMapGet (userChanges tx) u = some mm ∧ tokenEntriesOf mm = [(tm, tc)]
    · obtain ⟨u, mm, tm, tc, hsel, hu, hget, hent⟩ := hs
      rw [parseSwap_eval tx target u mm tm tc hsel hu hget hent] at h
      by_cases hz : jIsZero (solDeltaOf mm) || jIsZero tc
      · rw [if_pos hz] at h; simp at h
      · rw [if_neg hz] at h
        simp only [Option.map_some', Option.some.injEq] at h
        unfold sideOf at h
        by_cases hc1 : jLtZero (solDeltaOf mm) && jGtZero tc
        · rw [if_pos hc1] at h; simp at h
        · rw [if_neg hc1] at h
          by_cases hc2 : jLtZero tc && jGtZero (solDeltaOf mm)
          · rw [Bool.and_eq_true] at hc2
            exact ⟨u, mm, tm, tc, hsel, hu, hget, hent, hc2.1, hc2.2⟩
          · rw [if_neg hc2] at h; simp at h
    · push_neg at hs
      rw [parseSwap_shapeless tx target
        (fun u mm tm tc hc => by
          obtain ⟨h1, h2, h3, h4⟩ := hc
          exact absurd h4 (hs u mm tm tc h1 h2 h3))] at h
      simp at h
  · rintro ⟨u, mm, tm, tc, hsel, hu, hget, hent, hlt, hgt⟩
    unfold resultSide
    rw [parseSwap_eval tx target u mm tm tc hsel hu hget hent]
    rw [if_neg (by simp [jLtZero_isZero _ hlt, jGtZero_isZero _ hgt])]
    simp only [Option.map_some', Option.some.injEq]
    unfold sideOf
    have hc1 : ¬ (jLtZero (solDeltaOf mm) && jGtZero tc) = true := by
      intro hc
      rw [Bool.and_eq_true] at hc
      have h2 := hc.2
      have h1 := jGtZero_isZero _ h2
      have h1' := jLtZero_isZero _ hlt
      cases tc with
      | none => simp [jGtZero] at h2
      | some d =>
          simp only [jLtZero] at hlt
          simp only [jGtZero] at h2
          split at hlt
          · next hd =>
              split at h2
              · next hd2 => omega
              · simp at h2
          · simp at hlt
    rw [if_neg hc1, if_pos (by simp [hlt, hgt])]

theorem resultSide_unknown_of_not_shapes (tx : TransactionData) (target : Option String)
    (hb : ¬ BuyShape tx target) (hs : ¬ SellShape tx target) :
    resultSide tx target = none ∨ resultSide tx target = some Side.unknown := by
  rcases h : resultSide tx target with _ | side
  · exact Or.inl rfl
  · cases side with
    | buy => exact absurd ((resultSide_buy_iff tx target).mp h) hb
    | sell => exact absurd ((resultSide_sell_iff tx target).mp h) hs
    | unknown => exact Or.inr rfl

/-! ## C4: classifier sides -/

/-- C4: the classifier yields side `buy` exactly when the selected user
has a negative native delta and a single positive non-native delta, `sell`
exactly in the mirrored case, and an unclassified result (the empty
sentinel or side `unknown`) otherwise; on the concrete scenario payload it
returns buy of mint `M` with tokenAmount 1000 and quote (sol) amount 1/20
(that is, 0.05 native units). -/
theorem classifier_sides :
    (∀ tx target, resultSide tx target = some Side.buy ↔ BuyShape tx target) ∧
    (∀ tx target, resultSide tx target = some Side.sell ↔ SellShape tx target) ∧
    (∀ tx target, ¬ BuyShape tx target → ¬ SellShape tx target →
        resultSide tx target = none ∨ resultSide tx target = some Side.unknown) ∧
    parseSwap c4Tx (some "W")
      = some ⟨Side.buy, "M", some ⟨1000000000, 6⟩, some ⟨50000000, 9⟩⟩ ∧
    jToRat (some ⟨1000000000, 6⟩) = some 1000 ∧
    jToRat (some ⟨50000000, 9⟩) = some (1 / 20) :=
  ⟨resultSide_buy_iff, resultSide_sell_iff, resultSide_unknown_of_not_shapes,
   by decide,
   by simp [jToRat, Dec.toRat]; norm_num,
   by simp [jToRat, Dec.toRat]; norm_num⟩

/-- Witness instantiating the quantified parts of `classifier_sides` on
the concrete scenario payload. -/
theorem classifier_sides_witness :
    (resultSide c4Tx (some "W") = some Side.buy ↔ BuyShape c4Tx (some "W")) ∧
    resultSide c4Tx (some "W") = some Side.buy :=
  ⟨classifier_sides.1 c4Tx (some "W"), by decide⟩

/-! ## C6: malformed amounts become NaN, not zero -/

/-- Counterexample to C6 as stated: with the malformed raw amount "abc"
the classifier does NOT behave as if the change were zero.  The actual
result is a populated record with side `unknown` and a NaN tokenAmount,
whereas the genuinely-zero payload produces the empty sentinel; and the
parsed contribution of "abc" is NaN, not zero. -/
theorem classifier_malformed_counterexample :
    parseSwap malTx (some "W") = some ⟨Side.unknown, "M", none, some ⟨50000000, 9⟩⟩ ∧
    parseSwap malZeroTx (some "W") = none ∧
    jToRat (toHuman "abc" 6) ≠ some 0 :=
  ⟨by decide, by decide, by decide⟩

/-- C6 amended: the classifier never throws (it is a total function); a
token-balance change whose rawAmount does not parse contributes `NaN`
rather than zero, and a `NaN` token delta can never classify as buy or
sell — on the concrete malformed payload the result is a side-`unknown`
record with NaN tokenAmount rather than the sentinel that zero-treatment
would give. -/
theorem classifier_malformed_is_nan :
    (∀ tx target u mm tm, selectedUser tx target = some u →
        userMapGet (userChanges tx) u = some mm →
        tokenEntriesOf mm = [(tm, (none : JNum))] →
        resultSide tx target ≠ some Side.buy ∧ resultSide tx target ≠ some Side.sell) ∧
    toHuman "abc" 6 = none ∧
    parseSwap malTx (some "W") = some ⟨Side.unknown, "M", none, some ⟨50000000, 9⟩⟩ := by
  refine ⟨?_, by decide, by decide⟩
  intro tx target u mm tm hsel hget hent
  constructor
  · intro hbuy
    obtain ⟨u', mm', tm', tc', hsel', hu', hget', hent', hlt', hgt'⟩ :=
      (resultSide_buy_iff tx target).mp hbuy
    rw [hsel, Option.some.injEq] at hsel'
    subst hsel'
    rw [hget, Option.some.injEq] at hget'
    subst hget'
    rw [hent] at hent'
    simp only [List.cons.injEq, Prod.mk.injEq, and_true] at hent'
    rw [← hent'.2] at hgt'
    simp [jGtZero] at hgt'
  · intro hsell
    obtain ⟨u', mm', tm', tc', hsel', hu', hget', hent', hlt', hgt'⟩ :=
      (resultSide_sell_iff tx target).mp hsell
    rw [hsel, Option.some.injEq] at hsel'
    subst hsel'
    rw [hget, Option.some.injEq] at hget'
    subst hget'
    rw [hent] at hent'
    simp only [List.cons.injEq, Prod.mk.injEq, and_true] at hent'
    rw [← hent'.2] at hlt'
    simp [jLtZero] at hlt'

/-- Witness instantiating the quantified part of
`classifier_malformed_is_nan` on the concrete malformed payload. -/
theorem classifier_malformed_is_nan_witness :
    resultSide malTx (some "W") ≠ some Side.buy ∧
    resultSide malTx (some "W") ≠ some Side.sell :=
  classifier_malformed_is_nan.1 malTx (some "W") "W"
    [("M", none), (SOL_MINT, some ⟨-50000000, 9⟩)] "M"
    (by decide) (by decide) (by decide)

theorem addSubscription_userSubs (st : RegistryState) (s : SubInput) (id now : ℕ) :
    (addSubscription st s id now).userSubs s.userId
      = (st.userSubs s.userId).filter
          (fun x => if x.sub.kolWallet = s.kolWallet then false else true)
        ++ [⟨s, id, now, now⟩] := by
  simp [addSubscription, addKOLWalletSubscriber]

theorem filter_keep_of_drop (l : List StoredSub) (k : String) :
    (l.filter (fun x => if x.sub.kolWallet = k then false else true)).filter
        (fun x => if x.sub.kolWallet = k then true else false) = [] := by
  induction l with
  | nil => rfl
  | cons a t ih =>
      by_cases h : a.sub.kolWallet = k <;> simp [List.filter_cons, h, ih]

/-! ## Registry set and frame lemmas -/

theorem mem_ssadd {l : List String} {x y : String} : x ∈ ssadd l y ↔ x ∈ l ∨ x = y := by
  unfold ssadd
  by_cases h : y ∈ l
  · rw [if_pos h]
    exact ⟨Or.inl, fun hx => hx.elim id (fun he => he ▸ h)⟩
  · rw [if_neg h]
    simp

theorem ssadd_ne_nil (l : List String) (y : String) : ssadd l y ≠ [] := by
  unfold ssadd
  by_cases h : y ∈ l
  · rw [if_pos h]
    intro hn
    rw [hn] at h
    simp at h
  · rw [if_neg h]
    simp

theorem mem_ssrem {l : List String} {x y : String} : x ∈ ssrem l y ↔ x ∈ l ∧ x ≠ y := by
  unfold ssrem
  rw [List.mem_filter]
  constructor
  · rintro ⟨h1, h2⟩
    refine ⟨h1, ?_⟩
    intro he
    rw [if_pos he] at h2
    simp at h2
  · rintro ⟨h1, h2⟩
    exact ⟨h1, by rw [if_neg h2]⟩

theorem addSubscription_active_eq (st : RegistryState) (s : SubInput) (id now : ℕ) :
    (addSubscription st s id now).active = st.active := rfl

theorem addSubscription_subscribers_eq (st : RegistryState) (s : SubInput) (id now : ℕ)
    (k : String) :
    (addSubscription st s id now).subscribers k
      = if k = s.kolWallet then ssadd (st.subscribers k) s.userId else st.subscribers k := rfl

theorem addSubscription_userSubs_eq (st : RegistryState) (s : SubInput) (id now : ℕ)
    (v : String) :
    (addSubscription st s id now).userSubs v
      = if v = s.userId then
          (st.userSubs s.userId).filter
            (fun x => if x.sub.kolWallet = s.kolWallet then false else true)
          ++ [⟨s, id, now, now⟩]
        else st.userSubs v := rfl

theorem removeSubscription_userSubs_eq (st : RegistryState) (u kol v : String) :
    (removeSubscription st u kol).userSubs v
      = if v = u then
          (st.userSubs u).filter (fun x => if x.sub.kolWallet = kol then false else true)
        else st.userSubs v := by
  unfold removeSubscription removeKOLWalletSubscriber removeKOLWallet
  by_cases hs : ssrem (st.subscribers kol) u = [] <;> simp [hs]

theorem removeSubscription_subscribers_eq (st : RegistryState) (u kol k : String) :
    (removeSubscription st u kol).subscribers k
      = if k = kol then ssrem (st.subscribers kol) u else st.subscribers k := by
  unfold removeSubscription removeKOLWalletSubscriber removeKOLWallet
  by_cases hs : ssrem (st.subscribers kol) u = [] <;> simp [hs]

theorem removeSubscription_active_eq (st : RegistryState) (u kol : String) :
    (removeSubscription st u kol).active
      = if ssrem (st.subscribers kol) u = [] then ssrem st.active kol else st.active := by
  unfold removeSubscription removeKOLWalletSubscriber removeKOLWallet
  by_cases hs : ssrem (st.subscribers kol) u = [] <;> simp [hs]

theorem addKolWalletToWebhook_single (st : RegistryState) (w : String) :
    addKolWalletToWebhook st [w]
      = if w ∈ st.active then st else { st with active := ssadd st.active w } := by
  unfold addKolWalletToWebhook addKOLWallet
  by_cases h : w ∈ st.active <;> simp [h]

theorem subscribeToKOL_subscribers_eq (st : RegistryState) (s : SubInput) (id now : ℕ)
    (k : String) :
    (subscribeToKOL st s id now).subscribers k
      = if k = s.kolWallet then ssadd (st.subscribers k) s.userId else st.subscribers k := by
  unfold subscribeToKOL
  by_cases hin : s.kolWallet ∈ (addSubscription st s id now).active
  · rw [if_pos hin]
    exact addSubscription_subscribers_eq st s id now k
  · rw [if_neg hin, addKolWalletToWebhook_single, if_neg hin]
    exact addSubscription_subscribers_eq st s id now k

theorem subscribeToKOL_userSubs_eq (st : RegistryState) (s : SubInput) (id now : ℕ)
    (v : String) :
    (subscribeToKOL st s id now).userSubs v
      = if v = s.userId then
          (st.userSubs s.userId).filter
            (fun x => if x.sub.kolWallet = s.kolWallet then false else true)
          ++ [⟨s, id, now, now⟩]
        else st.userSubs v := by
  unfold subscribeToKOL
  by_cases hin : s.kolWallet ∈ (addSubscription st s id now).active
  · rw [if_pos hin]
    exact addSubscription_userSubs_eq st s id now v
  · rw [if_neg hin, addKolWalletToWebhook_single, if_neg hin]
    exact addSubscription_userSubs_eq st s id now v

theorem subscribeToKOL_active_mem (st : RegistryState) (s : SubInput) (id now : ℕ)
    (k : String) :
    k ∈ (subscribeToKOL st s id now).active ↔ k ∈ st.active ∨ k = s.kolWallet := by
  unfold subscribeToKOL
  by_cases hin : s.kolWallet ∈ (addSubscription st s id now).active
  · rw [if_pos hin, addSubscription_active_eq]
    rw [addSubscription_active_eq] at hin
    exact ⟨Or.inl, fun h => h.elim (fun hh => hh) (fun he => he ▸ hin)⟩
  · rw [if_neg hin, addKolWalletToWebhook_single, if_neg hin]
    show k ∈ ssadd (addSubscription st s id now).active s.kolWallet ↔ _
    rw [addSubscription_active_eq, mem_ssadd]

/-! ## Registry invariant preservation -/

theorem getSubscriptionsForKOL_ne_nil (st : RegistryState) (kol : String)
    (hsub : SubsInv st) (hne : st.subscribers kol ≠ []) :
    getSubscriptionsForKOL st kol ≠ [] := by
  obtain ⟨v, hv⟩ := List.exists_mem_of_ne_nil _ hne
  obtain ⟨x, hx, hxk⟩ := hsub kol v hv
  have hfind : ((st.userSubs v).find?
      (fun x => if x.sub.kolWallet = kol then true else false)).isSome := by
    rw [List.find?_isSome]
    exact ⟨x, hx, by rw [if_pos hxk]⟩
  obtain ⟨y, hy⟩ := Option.isSome_iff_exists.mp hfind
  have hmem : y ∈ getSubscriptionsForKOL st kol := List.mem_filterMap.mpr ⟨v, hv, hy⟩
  exact List.ne_nil_of_mem hmem

theorem removeSubscription_inv {st : RegistryState} (ha : ActiveInv st) (hsub : SubsInv st)
    (u kol : String) :
    ActiveInv (removeSubscription st u kol) ∧ SubsInv (removeSubscription st u kol) := by
  constructor
  · intro k
    rw [removeSubscription_active_eq, removeSubscription_subscribers_eq]
    by_cases hs : ssrem (st.subscribers kol) u = []
    · rw [if_pos hs]
      by_cases hk : k = kol
      · subst hk
        rw [if_pos rfl, hs, mem_ssrem]
        simp
      · rw [if_neg hk, mem_ssrem]
        constructor
        · rintro ⟨h1, _⟩
          exact (ha k).mp h1
        · intro h1
          exact ⟨(ha k).mpr h1, hk⟩
    · rw [if_neg hs]
      by_cases hk : k = kol
      · subst hk
        rw [if_pos rfl]
        constructor
        · intro _
          exact hs
        · intro _
          have hne : st.subscribers k ≠ [] := by
            intro hnil
            exact hs (by rw [hnil]; rfl)
          exact (ha k).mpr hne
      · rw [if_neg hk]
        exact ha k
  · intro k v hv
    rw [removeSubscription_subscribers_eq] at hv
    by_cases hk : k = kol
    · subst hk
      rw [if_pos rfl, mem_ssrem] at hv
      obtain ⟨hv1, hvu⟩ := hv
      obtain ⟨x, hx, hxk⟩ := hsub k v hv1
      refine ⟨x, ?_, hxk⟩
      rw [removeSubscription_userSubs_eq, if_neg hvu]
      exact hx
    · rw [if_neg hk] at hv
      obtain ⟨x, hx, hxk⟩ := hsub k v hv
      by_cases hvu : v = u
      · subst hvu
        refine ⟨x, ?_, hxk⟩
        rw [removeSubscription_userSubs_eq, if_pos rfl]
        apply List.mem_filter.mpr
        refine ⟨hx, ?_⟩
        rw [if_neg (by rw [hxk]; exact hk)]
      · refine ⟨x, ?_, hxk⟩
        rw [removeSubscription_userSubs_eq, if_neg hvu]
        exact hx

theorem subscribeToKOL_inv {st : RegistryState} (ha : ActiveInv st) (hsub : SubsInv st)
    (s : SubInput) (idn now : ℕ) :
    ActiveInv (subscribeToKOL st s idn now) ∧ SubsInv (subscribeToKOL st s idn now) := by
  constructor
  · intro k
    rw [subscribeToKOL_active_mem, subscribeToKOL_subscribers_eq]
    by_cases hk : k = s.kolWallet
    · subst hk
      rw [if_pos rfl]
      constructor
      · intro _
        exact ssadd_ne_nil _ _
      · intro _
        exact Or.inr rfl
    · rw [if_neg hk]
      constructor
      · rintro (h | he)
        · exact (ha k).mp h
        · exact absurd he hk
      · intro h
        exact Or.inl ((ha k).mpr h)
  · intro k v hv
    rw [subscribeToKOL_subscribers_eq] at hv
    by_cases hk : k = s.kolWallet
    · subst hk
      rw [if_pos rfl, mem_ssadd] at hv
      rcases hv with hv | rfl
      · by_cases hvu : v = s.userId
        · subst hvu
          refine ⟨⟨s, idn, now, now⟩, ?_, rfl⟩
          rw [subscribeToKOL_userSubs_eq, if_pos rfl]
          exact List.mem_append.mpr (Or.inr (by simp))
        · obtain ⟨x, hx, hxk⟩ := hsub s.kolWallet v hv
          refine ⟨x, ?_, hxk⟩
          rw [subscribeToKOL_userSubs_eq, if_neg hvu]
          exact hx
      · refine ⟨⟨s, idn, now, now⟩, ?_, rfl⟩
        rw [subscribeToKOL_userSubs_eq, if_pos rfl]
        exact List.mem_append.mpr (Or.inr (by simp))
    · rw [if_neg hk] at hv
      obtain ⟨x, hx, hxk⟩ := hsub k v hv
      by_cases hvu : v = s.userId
      · subst hvu
        refine ⟨x, ?_, hxk⟩
        rw [subscribeToKOL_userSubs_eq, if_pos rfl]
        apply List.mem_append.mpr
        left
        apply List.mem_filter.mpr
        refine ⟨hx, ?_⟩
        rw [if_neg (by rw [hxk]; exact hk)]
      · refine ⟨x, ?_, hxk⟩
        rw [subscribeToKOL_userSubs_eq, if_neg hvu]
        exact hx

theorem unsubscribeFromKOL_inv {st : RegistryState} (ha : ActiveInv st) (hsub : SubsInv st)
    (u kol : String) :
    ActiveInv (unsubscribeFromKOL st u kol) ∧ SubsInv (unsubscribeFromKOL st u kol) := by
  obtain ⟨ha1, hsub1⟩ := removeSubscription_inv ha hsub u kol
  unfold unsubscribeFromKOL
  by_cases hg : getSubscriptionsForKOL (removeSubscription st u kol) kol = []
  · rw [if_pos hg]
    have hnil : (removeSubscription st u kol).subscribers kol = [] := by
      by_contra hne
      exact getSubscriptionsForKOL_ne_nil _ _ hsub1 hne hg
    constructor
    · intro k
      show k ∈ ssrem (removeSubscription st u kol).active kol ↔ _
      by_cases hk : k = kol
      · subst hk
        rw [mem_ssrem]
        constructor
        · rintro ⟨_, hne⟩
          exact absurd rfl hne
        · intro h
          exact absurd hnil h
      · rw [mem_ssrem]
        constructor
        · rintro ⟨h1, _⟩
          exact (ha1 k).mp h1
        · intro h1
          exact ⟨(ha1 k).mpr h1, hk⟩
    · intro k v hv
      exact hsub1 k v hv
  · rw [if_neg hg]
    exact ⟨ha1, hsub1⟩

theorem reachable_inv {st : RegistryState} (h : Reachable st) :
    ActiveInv st ∧ SubsInv st := by
  induction h with
  | init =>
      constructor
      · intro k
        simp [initState]
      · intro k v hv
        simp [initState] at hv
  | subscribe s idn now _ ih => exact subscribeToKOL_inv ih.1 ih.2 s idn now
  | unsubscribe u kol _ ih => exact unsubscribeFromKOL_inv ih.1 ih.2 u kol
  | remove u kol _ ih => exact removeSubscription_inv ih.1 ih.2 u kol

/-! ## C2: active iff subscribers non-empty -/

/-- Counterexample to C2 as stated: `addKolWalletToWebhook` — one of the
public registry operations the claim quantifies over — activates a wallet
without giving it any subscriber, so the reachable state violates the
equivalence. -/
theorem registry_active_iff_counterexample :
    ReachableAll (addKolWalletToWebhook initState ["K1"]) ∧
    "K1" ∈ (addKolWalletToWebhook initState ["K1"]).active ∧
    (addKolWalletToWebhook initState ["K1"]).subscribers "K1" = [] :=
  ⟨ReachableAll.webhookAdd ["K1"] ReachableAll.init, by decide, rfl⟩

/-- C2 amended: in every state reachable through the service-level
operations `subscribeToKOL` and `unsubscribeFromKOL` (and the
`removeSubscription` they build on) from the empty database, a KOL wallet
is active exactly when its subscriber set is non-empty.  The raw webhook
mutators `addKolWalletToWebhook` / `removeKOLWalletWebhook` (and a bare
`addSubscription`) break the equivalence, as the counterexample shows. -/
theorem registry_active_iff_subscribers (st : RegistryState) (h : Reachable st)
    (k : String) :
    k ∈ st.active ↔ st.subscribers k ≠ [] :=
  (reachable_inv h).1 k

/-- Witness for the amended C2 in the state reached by one subscribe. -/
theorem registry_active_iff_subscribers_witness :
    "K1" ∈ (subscribeToKOL initState demoSub 1 100).active ↔
      (subscribeToKOL initState demoSub 1 100).subscribers "K1" ≠ [] :=
  registry_active_iff_subscribers _ (Reachable.subscribe demoSub 1 100 Reachable.init) "K1"

/-! ## C7: upsert by (userId, kolWallet) -/

/-- C7: after `addSubscription(s)` then `addSubscription(s')` with the same
`(userId, kolWallet)`, the user's list holds exactly one subscription for
that pair, and its caller-supplied fields are exactly those of `s'` (only
`id`, `createdAt`, `updatedAt` are generated). -/
theorem addSubscription_upsert (st : RegistryState) (s s' : SubInput) (id1 t1 id2 t2 : ℕ)
    (hu : s.userId = s'.userId) (hk : s.kolWallet = s'.kolWallet) :
    ((addSubscription (addSubscription st s id1 t1) s' id2 t2).userSubs s'.userId).filter
        (fun x => if x.sub.kolWallet = s'.kolWallet then true else false)
      = [⟨s', id2, t2, t2⟩] := by
  rw [addSubscription_userSubs, List.filter_append, filter_keep_of_drop]
  simp

/-- Witness for C7 at a concrete pair of subscriptions. -/
theorem addSubscription_upsert_witness :
    ((addSubscription (addSubscription initState demoSub 1 100) demoSub2 2 200).userSubs
        demoSub2.userId).filter
        (fun x => if x.sub.kolWallet = demoSub2.kolWallet then true else false)
      = [⟨demoSub2, 2, 200, 200⟩] :=
  addSubscription_upsert initState demoSub demoSub2 1 100 2 200 rfl rfl

/-! ## C8: id and timestamps are always regenerated -/

/-- Counterexample to C8 as stated: re-adding the same `(userId,
kolWallet)` does NOT keep the prior `id`/`createdAt` — the stored record
carries the second call's fresh id (2, not 1) and fresh timestamps
(200, not 100). -/
theorem addSubscription_regenerates_counterexample :
    (addSubscription initState demoSub 1 100).userSubs "U1" = [⟨demoSub, 1, 100, 100⟩] ∧
    (addSubscription (addSubscription initState demoSub 1 100) demoSub 2 200).userSubs "U1"
      = [⟨demoSub, 2, 200, 200⟩] ∧
    ((addSubscription (addSubscription initState demoSub 1 100) demoSub 2 200).userSubs
        "U1").map (·.id) ≠ [1] :=
  ⟨rfl, rfl, by decide⟩

/-- C8 amended: `addSubscription` always assigns the caller-fresh id and
sets both `createdAt` and `updatedAt` to the call time — also when a
subscription for `(userId, kolWallet)` already existed; the prior record's
id and `createdAt` are discarded wholesale. -/
theorem addSubscription_always_fresh (st : RegistryState) (s : SubInput) (id now : ℕ)
    (x : StoredSub)
    (hx : x ∈ (addSubscription st s id now).userSubs s.userId)
    (hk : x.sub.kolWallet = s.kolWallet) :
    x = ⟨s, id, now, now⟩ := by
  rw [addSubscription_userSubs] at hx
  rcases List.mem_append.mp hx with hmem | hmem
  · have hp := List.of_mem_filter hmem
    rw [if_pos hk] at hp
    simp at hp
  · simpa using hmem

/-- Witness for the amended C8. -/
theorem addSubscription_always_fresh_witness :
    (⟨demoSub, 5, 500, 500⟩ : StoredSub) = ⟨demoSub, 5, 500, 500⟩ :=
  addSubscription_always_fresh initState demoSub 5 500 ⟨demoSub, 5, 500, 500⟩
    (List.Mem.head _) rfl

/-! ## C10: removing a nonexistent subscription -/

/-- C10: when the user holds no subscription for the KOL,
`removeSubscription` leaves every subscription list unchanged, still
`SREM`s the user from the KOL's subscriber set, and — when that set is
empty afterwards — removes the KOL from the active set (and the
subscribers key stays deleted/empty). -/
theorem removeSubscription_nonexistent (st : RegistryState) (u kol : String)
    (h : ∀ x ∈ st.userSubs u, x.sub.kolWallet ≠ kol) :
    (∀ v, (removeSubscription st u kol).userSubs v = st.userSubs v) ∧
    (removeSubscription st u kol).subscribers kol = ssrem (st.subscribers kol) u ∧
    (ssrem (st.subscribers kol) u = [] →
      kol ∉ (removeSubscription st u kol).active ∧
      (removeSubscription st u kol).subscribers kol = []) := by
  have hfilter : (st.userSubs u).filter
      (fun x => if x.sub.kolWallet = kol then false else true) = st.userSubs u := by
    apply List.filter_eq_self.mpr
    intro a ha
    rw [if_neg (h a ha)]
  refine ⟨?_, ?_, ?_⟩
  · intro v
    rw [removeSubscription_userSubs_eq]
    by_cases hv : v = u
    · rw [if_pos hv, hfilter, hv]
    · rw [if_neg hv]
  · rw [removeSubscription_subscribers_eq, if_pos rfl]
  · intro hs
    constructor
    · rw [removeSubscription_active_eq, if_pos hs, mem_ssrem]
      rintro ⟨_, hne⟩
      exact hne rfl
    · rw [removeSubscription_subscribers_eq, if_pos rfl]
      exact hs

/-- Witness for C10: in a state where `K1` is active with zero
subscribers, removing a nonexistent subscription deactivates `K1`. -/
theorem removeSubscription_nonexistent_witness :
    (removeSubscription orphanActiveState "U2" "K1").userSubs "U2"
        = orphanActiveState.userSubs "U2" ∧
    (removeSubscription orphanActiveState "U2" "K1").subscribers "K1"
        = ssrem (orphanActiveState.subscribers "K1") "U2" ∧
    "K1" ∉ (removeSubscription orphanActiveState "U2" "K1").active :=
  ⟨(removeSubscription_nonexistent orphanActiveState "U2" "K1" (by simp [orphanActiveState])).1
      "U2",
   (removeSubscription_nonexistent orphanActiveState "U2" "K1" (by simp [orphanActiveState])).2.1,
   ((removeSubscription_nonexistent orphanActiveState "U2" "K1"
        (by simp [orphanActiveState])).2.2 rfl).1⟩

/-! ## C5: quota gate at the limit -/

/-- C5: when the stored counter already equals `maxCount`,
`incrementAndValidatePurchase` reports `{success = false, newCount =
maxCount, wasAtLimit = true}` and the rollback decrement leaves the stored
counter at `maxCount`. -/
theorem incrementAndValidate_at_limit (st : TrackerState) (u t : String)
    (maxCount subId now : ℕ) (ok : Bool)
    (h : st.counter u t = maxCount) :
    (incrementAndValidatePurchase st u t maxCount subId now ok).2
        = ⟨false, maxCount, true⟩ ∧
    (incrementAndValidatePurchase st u t maxCount subId now ok).1.counter u t = maxCount := by
  have hgt : st.counter u t + 1 > maxCount := by omega
  simp [incrementAndValidatePurchase, hgt, h]

/-- Witness for C5 at `maxCount = 1` with the counter already at 1. -/
theorem incrementAndValidate_at_limit_witness :
    (incrementAndValidatePurchase ⟨fun _ _ => 1, fun _ _ => none⟩ "U1" "M" 1 7 1000 true).2
        = ⟨false, 1, true⟩ ∧
    (incrementAndValidatePurchase ⟨fun _ _ => 1, fun _ _ => none⟩ "U1" "M" 1 7 1000
        true).1.counter "U1" "M" = 1 :=
  incrementAndValidate_at_limit ⟨fun _ _ => 1, fun _ _ => none⟩ "U1" "M" 1 7 1000 true rfl

/-! ## C9: record-write failure leaks a quota unit -/

/-- C9: if the increment stays within the limit but the record write
fails, the call reports `{success = false, newCount = 0, wasAtLimit =
false}` while the stored counter remains incremented (hence non-zero, so
the reported `newCount` of 0 misreports it) and no record is written. -/
theorem incrementAndValidate_write_failure (st : TrackerState) (u t : String)
    (maxCount subId now : ℕ)
    (h : st.counter u t + 1 ≤ maxCount) :
    (incrementAndValidatePurchase st u t maxCount subId now false).2 = ⟨false, 0, false⟩ ∧
    (incrementAndValidatePurchase st u t maxCount subId now false).1.counter u t
        = st.counter u t + 1 ∧
    (incrementAndValidatePurchase st u t maxCount subId now false).1.counter u t ≠ 0 ∧
    (incrementAndValidatePurchase st u t maxCount subId now false).1.record = st.record := by
  have hng : ¬ st.counter u t + 1 > maxCount := by omega
  simp [incrementAndValidatePurchase, hng]

/-- Witness for C9 with an empty counter and `maxCount = 3`. -/
theorem incrementAndValidate_write_failure_witness :
    (incrementAndValidatePurchase ⟨fun _ _ => 0, fun _ _ => none⟩ "U1" "M" 3 7 1000 false).2
        = ⟨false, 0, false⟩ ∧
    (incrementAndValidatePurchase ⟨fun _ _ => 0, fun _ _ => none⟩ "U1" "M" 3 7 1000
        false).1.counter "U1" "M" = 0 + 1 ∧
    (incrementAndValidatePurchase ⟨fun _ _ => 0, fun _ _ => none⟩ "U1" "M" 3 7 1000
        false).1.counter "U1" "M" ≠ 0 ∧
    (incrementAndValidatePurchase ⟨fun _ _ => 0, fun _ _ => none⟩ "U1" "M" 3 7 1000
        false).1.record = (⟨fun _ _ => 0, fun _ _ => none⟩ : TrackerState).record :=
  incrementAndValidate_write_failure ⟨fun _ _ => 0, fun _ _ => none⟩ "U1" "M" 3 7 1000
    (by decide)

/-! ## C3: notification estimatedCopyAmount -/

/-- Counterexample to C3: for the concrete buy whose quote amount is 1/20
native units and a subscription with `copyPercentage = 50`, the emitted
`estimatedCopyAmount` is 0, while the claimed value
`quoteAmount × copyPercentage / 100` is 1/40 ≠ 0. -/
theorem notification_amount_counterexample :
    buildNotifications [c4Tx] [demoStored] = [("U1", 0)] ∧
    (1 / 20 : ℚ) * (demoStored.sub.copyPercentage / 100) ≠ 0 := by
  constructor
  · simp [buildNotifications, estimatedCopyAmount, webhookArrayAmountIn, demoStored, demoSub]
  · norm_num [demoStored, demoSub]

/-- C3 amended: the notification's `estimatedCopyAmount` is always 0 — the
code reads `amountIn` off the raw webhook body, which is a JSON array with
no such field, so `(data.amountIn || 0)` is 0 for every payload and every
subscription. -/
theorem notification_amount_always_zero (body : List TransactionData)
    (subs : List StoredSub) :
    buildNotifications body subs = subs.map (fun s => (s.sub.userId, (0 : ℚ))) := by
  simp [buildNotifications, estimatedCopyAmount, webhookArrayAmountIn]

/-! ## C1: the copy-trade batch ignores the quota gate -/

/-- C1 evaluation at the failing input: a `trade` subscription with
`tokenBuyCount = 1` and a `watchConfig`, whose counter for mint `M`
already sits at the limit (so `incrementAndValidatePurchase` would refuse,
last conjunct), is nevertheless placed in the `performBatchTrades` RPC
batch — `processTransaction` builds the batch from the subscription list
alone and never consults the `TokenPurchaseTracker`. -/
theorem batch_ignores_quota_gate :
    performBatchTradesCall [demoStored] (some demoTrade)
      = some [{ agentId := "U1", tradeType := some TradeDir.buy, amount := some 1,
                privateKey := "PK1", mint := some "M", priority := "high",
                watchConfig := some demoWatchConfig }] ∧
    demoStored.sub.type = SubType.trade ∧
    demoStored.sub.tokenBuyCount = some 1 ∧
    demoStored.sub.watchConfig = some demoWatchConfig ∧
    (incrementAndValidatePurchase ⟨fun _ _ => 1, fun _ _ => none⟩ "U1" "M" 1 1 0 true).2.success
      = false :=
  ⟨rfl, rfl, rfl, rfl, rfl⟩

end CopyTrader
